import Mathlib

/-! Storage-obligation corruption scanner (`main.go`)

A shallow embedding of the single Go source file of the repository:

* `storageObligationStatus.String` (lines 70-85);
* the scan pass of `main` (lines 94-129): a read-only bolt transaction whose
  closure walks a cursor over the `BucketStorageObligations` bucket, runs
  `json.Unmarshal` on every value and writes every undecodable value to
  `contract-<hex key>-corrupted.json`;
* the repair and verification passes that `main` carries inside a comment
  (lines 131-157).

External collaborators are parameters of the model (`Env`): the outcome of
`json.Unmarshal` on a payload, and the outcomes of `os.Create` and
`(*os.File).Write`.  The bolt bucket is the list of its records in cursor
order; a file system is a map from file names to contents.
-/

namespace SiaHostdbCorruption

/-! ## Bytes, strings, errors -/

/-- A Go `byte`. -/
abbrev Byte := Fin 256

/-- A Go `[]byte`. -/
abbrev Bytes := List Byte

/-- A Go `error` value: a message, and for errors built with the `%w` verb
the error they wrap. -/
inductive GoError where
  | leaf (msg : String)
  | wrapped (msg : String) (cause : GoError)
  deriving DecidableEq, Repr

namespace GoError

/-- The `Error()` method. -/
def Error : GoError → String
  | leaf m => m
  | wrapped m _ => m

/-- The chain walked by `errors.Unwrap`, the error itself first. -/
def chain : GoError → List GoError
  | leaf m => [leaf m]
  | wrapped m c => wrapped m c :: chain c

end GoError

/-- The call `fmt.Errorf(pfx + "%w", err)`: the message is the prefix followed
by the message of `err`, and the result wraps `err`. -/
def errorf (pfx : String) (err : GoError) : GoError :=
  GoError.wrapped (pfx ++ err.Error) err

/-! ## `strconv.FormatInt(_, 10)` and the status formatter -/

/-- The decimal digit character of `d` (taken modulo 10). -/
def digitChar (d : Nat) : Char :=
  Char.ofNat (48 + d % 10)

/-- Decimal digits of `n`, most significant first, written in front of `acc`.
The first argument bounds the number of digits. -/
def decimalDigits : Nat → Nat → List Char → List Char
  | 0, _, acc => acc
  | fuel + 1, n, acc =>
    if n < 10 then digitChar n :: acc
    else decimalDigits fuel (n / 10) (digitChar n :: acc)

/-- The decimal representation of a natural number below `10 ^ 20` (every
64-bit value is). -/
def formatUint (n : Nat) : String :=
  String.mk (decimalDigits 20 n [])

/-- The call `strconv.FormatInt(i, 10)`: a minus sign for a negative value,
then the decimal digits of the magnitude. -/
def formatInt (i : Int) : String :=
  if i < 0 then "-" ++ formatUint i.natAbs else formatUint i.natAbs

/-- The conversion `int64(i)` of a `uint64`: the same 64 bits read as a
two's-complement number. -/
def toInt64 (i : Nat) : Int :=
  if i % 2 ^ 64 < 2 ^ 63 then ((i % 2 ^ 64 : Nat) : Int)
  else ((i % 2 ^ 64 : Nat) : Int) - 2 ^ 64

/-- The method `storageObligationStatus.String`; the receiver is a `uint64`,
given as a natural number below `2 ^ 64`. -/
def storageObligationStatus.String (i : Nat) : String :=
  if i = 0 then "obligationUnresolved"
  else if i = 1 then "obligationRejected"
  else if i = 2 then "obligationSucceeded"
  else if i = 3 then "obligationFailed"
  else "storageObligationStatus(" ++ formatInt (toInt64 i) ++ ")"

/-! ## `hex.EncodeToString` and the quarantine file name -/

/-- The table `hextable = "0123456789abcdef"` of `encoding/hex`, indexed by a
nibble. -/
def hextable (n : Nat) : Char :=
  if n % 16 < 10 then Char.ofNat (48 + n % 16) else Char.ofNat (87 + n % 16)

/-- The characters `hex.EncodeToString` produces: for every byte `v` the two
characters `hextable[v >> 4]` and `hextable[v & 0x0f]`. -/
def hexChars : Bytes → List Char
  | [] => []
  | b :: bs => hextable (b.val / 16) :: hextable (b.val % 16) :: hexChars bs

/-- The call `hex.EncodeToString(k)`. -/
def hexEncodeToString (k : Bytes) : String :=
  String.mk (hexChars k)

/-- The call `fmt.Sprintf("contract-%v-corrupted.json", contractID)`. -/
def corruptedFileName (contractID : String) : String :=
  "contract-" ++ contractID ++ "-corrupted.json"

/-! ## The environment: database, file system, external calls -/

/-- A record of the bucket: key and value. -/
abbrev Record := Bytes × Bytes

/-- The contents of the bucket `BucketStorageObligations`: its records in the
order a bolt cursor yields them. -/
abbrev Bucket := List Record

/-- The working directory: file name to file contents. -/
abbrev FileSys := String → Option Bytes

/-- Sets the contents of one file. -/
def FileSys.put (fs : FileSys) (name : String) (data : Bytes) : FileSys :=
  fun n => if n = name then some data else fs n

/-- The value stored under a key of the bucket (`Bucket.Get`). -/
def Bucket.get (b : Bucket) (k : Bytes) : Option Bytes :=
  (b.find? (fun r => decide (r.1 = k))).map Prod.snd

/-- The calls whose code is outside the repository.  An error result `none`
is Go's `nil`.
* `unmarshal v` is the error of `json.Unmarshal(v, &so)`;
* `create name` is the error of `os.Create(name)`; it is a function of the
  name alone, since `os.Create` opens with `O_CREATE|O_TRUNC` and so does not
  fail because the file is already there;
* `write name v` is the result of `f.Write(v)` on the file just created: on
  failure the number of bytes that did reach the file, and the error;
* `openDB` is the error of `bolt.Open(os.Args[1], 0600, nil)`. -/
structure Env where
  unmarshal : Bytes → Option GoError
  create : String → Option GoError
  write : String → Bytes → Option (Nat × GoError)
  openDB : Option GoError

/-- What the process can observe and change: the bucket, the working
directory and the lines written by the `log` package (without their time
stamps).  `nested` lists the keys of the bucket under which a nested bucket is
stored instead of a value; a cursor yields such a key with a `nil` value, so
`db` lists it with the empty value. -/
structure World where
  db : Bucket
  files : FileSys
  log : List String
  nested : List Bytes := []

/-- How the process ends: by returning from `main`, or through
`log.Fatalln`, which exits with status 1. -/
inductive Exit where
  | normal
  | fatal
  deriving DecidableEq, Repr

/-! ## bolt transactions -/

/-- A bolt transaction: whether it is writable, its view of the bucket, and
the keys of the bucket that hold a nested bucket. -/
structure Tx where
  writable : Bool
  bucket : Bucket
  nested : List Bytes

/-- The error `bolt.ErrTxNotWritable`. -/
def ErrTxNotWritable : GoError := GoError.leaf "tx not writable"

/-- The error `bolt.ErrIncompatibleValue`. -/
def ErrIncompatibleValue : GoError := GoError.leaf "incompatible value"

/-- The call `db.View(fn)`: `fn` runs in a read-only transaction that is rolled
back when `fn` returns; the database keeps its contents and the error of `fn`
is returned. -/
def dbView {σ : Type} (db : Bucket) (nested : List Bytes)
    (fn : Tx → σ → Tx × σ × Option GoError) (s : σ) : Bucket × σ × Option GoError :=
  let r := fn { writable := false, bucket := db, nested := nested } s
  (db, r.2.1, r.2.2)

/-- The call `db.Update(fn)`: `fn` runs in a writable transaction, committed
when `fn` returns `nil` and rolled back when it returns an error. -/
def dbUpdate {σ : Type} (db : Bucket) (nested : List Bytes)
    (fn : Tx → σ → Tx × σ × Option GoError) (s : σ) : Bucket × σ × Option GoError :=
  let r := fn { writable := true, bucket := db, nested := nested } s
  match r.2.2 with
  | some err => (db, r.2.1, some err)
  | none => (r.1.bucket, r.2.1, none)

/-- The call `tx.Bucket(..).Delete(k)`: `ErrTxNotWritable` in a read-only
transaction and `ErrIncompatibleValue` when the key holds a nested bucket;
otherwise the key is removed, and a key that is absent is not an error. -/
def bucketDelete (tx : Tx) (k : Bytes) : Tx × Option GoError :=
  if tx.writable then
    if k ∈ tx.nested then (tx, some ErrIncompatibleValue)
    else ({ tx with bucket := tx.bucket.filter (fun r => !decide (r.1 = k)) }, none)
  else (tx, some ErrTxNotWritable)

/-! ## The scan pass (lines 94-126) -/

/-- The variables of `main` the scan closure updates, with the working
directory and the log.  The two counters are Go `int`s; a bucket holds far
fewer than `2 ^ 63` records, so they never wrap and are natural numbers here. -/
structure ScanState where
  corruptKeys : List Bytes
  corrupt : Nat
  working : Nat
  files : FileSys
  log : List String

/-- The function literal of lines 106-116: create the quarantine file, write
the value, return the wrapped error of the step that failed.  `os.Create`
truncates an existing file. -/
def writeCorrupted (env : Env) (contractID : String) (v : Bytes) (fs : FileSys) :
    FileSys × Option GoError :=
  match env.create (corruptedFileName contractID) with
  | some err => (fs, some (errorf "failed to create file: " err))
  | none =>
    match env.write (corruptedFileName contractID) v with
    | some (n, err) =>
      (fs.put (corruptedFileName contractID) (v.take n),
        some (errorf "failed to write data: " err))
    | none => (fs.put (corruptedFileName contractID) v, none)

/-- The cursor loop of lines 99-125 over the records that remain, followed by
the `return nil` of line 125. -/
def scanLoop (env : Env) : List Record → ScanState → ScanState × Option GoError
  | [], st => (st, none)
  | (k, v) :: rest, st =>
    match env.unmarshal v with
    | some derr =>
      let st1 : ScanState :=
        { st with
          log := st.log ++
            ["corrupt storage obligation " ++ hexEncodeToString k ++ ": " ++ derr.Error]
          corruptKeys := st.corruptKeys ++ [k] }
      match writeCorrupted env (hexEncodeToString k) v st1.files with
      | (fs, some err) =>
        ({ st1 with files := fs },
          some (errorf ("failed to write corrupted contract " ++ hexEncodeToString k ++ ": ")
            err))
      | (fs, none) => scanLoop env rest { st1 with files := fs, corrupt := st1.corrupt + 1 }
    | none => scanLoop env rest { st with working := st.working + 1 }

/-- The state at line 96: no corrupt keys, both counters zero. -/
def initState (w : World) : ScanState :=
  { corruptKeys := [], corrupt := 0, working := 0, files := w.files, log := w.log }

/-- Lines 94-126: the declarations and the `db.View` call. -/
def scanPass (env : Env) (w : World) : Bucket × ScanState × Option GoError :=
  dbView w.db w.nested (fun tx st => (tx, scanLoop env tx.bucket st)) (initState w)

/-- The program `main` as it stands, the repair pass being a comment. -/
def main (env : Env) (w : World) : World × Exit :=
  match env.openDB with
  | some err => ({ w with log := w.log ++ [err.Error] }, Exit.fatal)
  | none =>
    match scanPass env w with
    | (db, st, some err) =>
      ({ db := db, files := st.files, log := st.log ++ [err.Error], nested := w.nested },
        Exit.fatal)
    | (db, st, none) =>
      ({ db := db, files := st.files, log := st.log, nested := w.nested }, Exit.normal)

/-! ## The repair and verification passes (the comment of lines 131-157) -/

/-- The loop of lines 134-138 inside the write transaction. -/
def deleteLoop : List Bytes → Tx → Tx × Option GoError
  | [], tx => (tx, none)
  | k :: ks, tx =>
    match bucketDelete tx k with
    | (tx1, some err) =>
      (tx1, some (errorf ("failed to delete corrupt obligation " ++ hexEncodeToString k ++ ": ")
        err))
    | (tx1, none) => deleteLoop ks tx1

/-- Lines 133-140: the `db.Update` call that deletes the corrupt keys. -/
def repairPass (corruptKeys : List Bytes) (db : Bucket) (nested : List Bytes) :
    Bucket × Option GoError :=
  let r := dbUpdate db nested (fun tx (u : Unit) => ((deleteLoop corruptKeys tx).1, u,
    (deleteLoop corruptKeys tx).2)) ()
  (r.1, r.2.2)

/-- The cursor loop of lines 147-152: the first value that does not decode
ends it with an error. -/
def verifyLoop (env : Env) : List Record → Option GoError
  | [] => none
  | (_, v) :: rest =>
    match env.unmarshal v with
    | some err => some (errorf "still corrupt: " err)
    | none => verifyLoop env rest

/-- The program with the comment markers of lines 132 and 157 removed. -/
def mainWithRepair (env : Env) (w : World) : World × Exit :=
  match env.openDB with
  | some err => ({ w with log := w.log ++ [err.Error] }, Exit.fatal)
  | none =>
    match scanPass env w with
    | (db, st, some err) =>
      ({ db := db, files := st.files, log := st.log ++ [err.Error], nested := w.nested },
        Exit.fatal)
    | (db, st, none) =>
      let log1 := st.log ++
        ["Removing " ++ formatUint st.corrupt ++ "/" ++ formatUint st.working ++
          " corrupt storage obligations"]
      match repairPass st.corruptKeys db w.nested with
      | (db1, some err) =>
        ({ db := db1, files := st.files, log := log1 ++ [err.Error], nested := w.nested },
          Exit.fatal)
      | (db1, none) =>
        match dbView db1 w.nested
          (fun tx (u : Unit) => (tx, u, verifyLoop env tx.bucket)) () with
        | (db2, _, some err) =>
          ({ db := db2, files := st.files, log := log1 ++ [err.Error], nested := w.nested },
            Exit.fatal)
        | (db2, _, none) =>
          ({ db := db2, files := st.files, log := log1, nested := w.nested }, Exit.normal)

/-! ## Vocabulary of the statements -/

/-- Whether the value of a record fails to decode. -/
def isCorrupt (env : Env) (r : Record) : Bool :=
  (env.unmarshal r.2).isSome

/-- The quarantine file of a key. -/
def quarantineName (k : Bytes) : String :=
  corruptedFileName (hexEncodeToString k)

/-- Every file operation the scan attempts on the records of `store` succeeds:
for each record whose value does not decode, both `os.Create` and `Write`
return no error. -/
def writesSucceed (env : Env) (store : List Record) : Prop :=
  ∀ r ∈ store, isCorrupt env r = true →
    env.create (quarantineName r.1) = none ∧ env.write (quarantineName r.1) r.2 = none

/-- The keys of the bucket are strictly ascending in the byte-wise
lexicographic order, the order in which bolt stores and yields them. -/
def keysAscending (b : Bucket) : Prop :=
  List.Sorted (fun k k' : Bytes => k < k') (b.map Prod.fst)

/-- The world a scan pass leaves behind: the bucket after the transaction, the
working directory and the log as the scan left them. -/
def worldAfterScan (env : Env) (w : World) : World :=
  { db := (scanPass env w).1, files := (scanPass env w).2.1.files,
    log := (scanPass env w).2.1.log, nested := w.nested }

/-! ## Concrete data for the examples -/

/-- A value that decodes. -/
def goodValue : Bytes := [123, 125]

/-- A value cut off in the middle of a field. -/
def truncatedValue : Bytes := [123, 34, 83]

/-- The error a decoder reports on a truncated value. -/
def eofError : GoError := GoError.leaf "unexpected end of JSON input"

/-- An I/O error. -/
def diskError : GoError := GoError.leaf "no space left on device"

/-- A decoder that rejects exactly the values other than `goodValue`. -/
def sampleUnmarshal (v : Bytes) : Option GoError :=
  if v = goodValue then none else some eofError

/-- An environment in which every file operation succeeds. -/
def okEnv : Env :=
  { unmarshal := sampleUnmarshal, create := fun _ => none, write := fun _ _ => none,
    openDB := none }

/-- An environment in which creating a file fails. -/
def noCreateEnv : Env :=
  { unmarshal := sampleUnmarshal, create := fun _ => some diskError, write := fun _ _ => none,
    openDB := none }

/-- Three records under the keys `k1 < k2 < k3`; only the second value does
not decode. -/
def sampleBucket : Bucket := [([1], goodValue), ([2], truncatedValue), ([3], goodValue)]

/-- A bucket with two corrupt records. -/
def twoCorruptBucket : Bucket :=
  [([1], truncatedValue), ([2], goodValue), ([171, 205], [0, 255])]

/-- A bucket in which no value decodes. -/
def allCorruptBucket : Bucket := [([1], truncatedValue), ([2], []), ([2, 0], [0])]

/-- A bucket whose second key holds a nested bucket: the cursor yields it with
a `nil` value. -/
def nestedBucket : Bucket := [([1], goodValue), ([2], []), ([3], goodValue)]

/-- A world with `nestedBucket` and an empty working directory. -/
def nestedWorld : World :=
  { db := nestedBucket, files := fun _ => none, log := [], nested := [[2]] }

/-- A world with the sample bucket and an empty working directory. -/
def sampleWorld : World := { db := sampleBucket, files := fun _ => none, log := [] }

/-! ## Lemmas on the file name -/

theorem hextable_inj (a b : Fin 16) (h : hextable a.val = hextable b.val) : a = b := by
  revert a b
  decide

theorem hextable_eq_of_lt {a b : Nat} (ha : a < 16) (hb : b < 16)
    (h : hextable a = hextable b) : a = b := by
  have := hextable_inj ⟨a, ha⟩ ⟨b, hb⟩ h
  exact congrArg Fin.val this

theorem hexChars_injective : ∀ k k' : Bytes, hexChars k = hexChars k' → k = k'
  | [], [], _ => rfl
  | [], _ :: _, h => by simp [hexChars] at h
  | _ :: _, [], h => by simp [hexChars] at h
  | b :: bs, c :: cs, h => by
    simp only [hexChars, List.cons.injEq] at h
    obtain ⟨h1, h2, h3⟩ := h
    have e1 : b.val / 16 = c.val / 16 :=
      hextable_eq_of_lt (by omega) (by omega) h1
    have e2 : b.val % 16 = c.val % 16 :=
      hextable_eq_of_lt (by omega) (by omega) h2
    have e : b = c := Fin.ext (by omega)
    rw [e, hexChars_injective bs cs h3]

theorem quarantineName_injective (k k' : Bytes)
    (h : quarantineName k = quarantineName k') : k = k' := by
  unfold quarantineName corruptedFileName hexEncodeToString at h
  have h1 := congrArg String.data h
  simp only [String.data_append, List.append_assoc] at h1
  have h2 := List.append_cancel_left h1
  have h3 := List.append_cancel_right h2
  exact hexChars_injective k k' h3

/-! ## Lemmas on the quarantine writer -/

theorem writeCorrupted_ok {env : Env} {k v : Bytes} (fs : FileSys)
    (hc : env.create (quarantineName k) = none)
    (hw : env.write (quarantineName k) v = none) :
    writeCorrupted env (hexEncodeToString k) v fs = (fs.put (quarantineName k) v, none) := by
  unfold quarantineName at hc hw
  simp [writeCorrupted, hc, hw, quarantineName]

theorem writeCorrupted_create_fails {env : Env} {k v : Bytes} {e : GoError} (fs : FileSys)
    (hc : env.create (quarantineName k) = some e) :
    writeCorrupted env (hexEncodeToString k) v fs =
      (fs, some (errorf "failed to create file: " e)) := by
  unfold quarantineName at hc
  simp [writeCorrupted, hc]

theorem writeCorrupted_write_fails {env : Env} {k v : Bytes} {n : Nat} {e : GoError}
    (fs : FileSys) (hc : env.create (quarantineName k) = none)
    (hw : env.write (quarantineName k) v = some (n, e)) :
    writeCorrupted env (hexEncodeToString k) v fs =
      (fs.put (quarantineName k) (v.take n), some (errorf "failed to write data: " e)) := by
  unfold quarantineName at hc hw
  simp [writeCorrupted, hc, hw, quarantineName]

theorem writeCorrupted_success_iff (env : Env) (k v : Bytes) (fs : FileSys) :
    (writeCorrupted env (hexEncodeToString k) v fs).2 = none ↔
      env.create (quarantineName k) = none ∧ env.write (quarantineName k) v = none := by
  unfold quarantineName writeCorrupted
  cases hc : env.create (corruptedFileName (hexEncodeToString k)) with
  | some e => simp
  | none =>
    cases hw : env.write (corruptedFileName (hexEncodeToString k)) v with
    | some p => simp
    | none => simp

theorem writeCorrupted_other (env : Env) (k v : Bytes) (fs : FileSys) (name : String)
    (hne : quarantineName k ≠ name) :
    (writeCorrupted env (hexEncodeToString k) v fs).1 name = fs name := by
  have hne' : ¬ name = corruptedFileName (hexEncodeToString k) := fun h => hne h.symm
  unfold writeCorrupted
  cases hc : env.create (corruptedFileName (hexEncodeToString k)) with
  | some e => simp
  | none =>
    cases hw : env.write (corruptedFileName (hexEncodeToString k)) v with
    | some p => simp [FileSys.put, hne']
    | none => simp [FileSys.put, hne']

theorem writeCorrupted_keeps (env : Env) (k v : Bytes) (fs : FileSys) (name : String)
    (h : (fs name).isSome = true) :
    ((writeCorrupted env (hexEncodeToString k) v fs).1 name).isSome = true := by
  unfold writeCorrupted
  cases hc : env.create (corruptedFileName (hexEncodeToString k)) with
  | some e => simpa using h
  | none =>
    cases hw : env.write (corruptedFileName (hexEncodeToString k)) v with
    | some p =>
      by_cases hn : name = corruptedFileName (hexEncodeToString k)
      · simp [FileSys.put, hn]
      · simpa [FileSys.put, hn] using h
    | none =>
      by_cases hn : name = corruptedFileName (hexEncodeToString k)
      · simp [FileSys.put, hn]
      · simpa [FileSys.put, hn] using h

/-! ## Lemmas on the cursor loop -/

theorem scanLoop_cons_good (env : Env) (k v : Bytes) (rest : List Record) (st : ScanState)
    (h : env.unmarshal v = none) :
    scanLoop env ((k, v) :: rest) st =
      scanLoop env rest { st with working := st.working + 1 } := by
  simp [scanLoop, h]

theorem scanLoop_cons_bad_ok (env : Env) (k v : Bytes) (rest : List Record) (st : ScanState)
    (derr : GoError) (h : env.unmarshal v = some derr) (fs : FileSys)
    (hw : writeCorrupted env (hexEncodeToString k) v st.files = (fs, none)) :
    scanLoop env ((k, v) :: rest) st =
      scanLoop env rest
        { corruptKeys := st.corruptKeys ++ [k], corrupt := st.corrupt + 1,
          working := st.working, files := fs,
          log := st.log ++
            ["corrupt storage obligation " ++ hexEncodeToString k ++ ": " ++ derr.Error] } := by
  simp [scanLoop, h, hw]

theorem scanLoop_cons_bad_fail (env : Env) (k v : Bytes) (rest : List Record)
    (st : ScanState) (derr : GoError) (h : env.unmarshal v = some derr) (fs : FileSys)
    (err : GoError) (hw : writeCorrupted env (hexEncodeToString k) v st.files = (fs, some err)) :
    scanLoop env ((k, v) :: rest) st =
      ({ corruptKeys := st.corruptKeys ++ [k], corrupt := st.corrupt,
         working := st.working, files := fs,
         log := st.log ++
           ["corrupt storage obligation " ++ hexEncodeToString k ++ ": " ++ derr.Error] },
        some (errorf ("failed to write corrupted contract " ++ hexEncodeToString k ++ ": ")
          err)) := by
  simp [scanLoop, h, hw]

/-- A scan that returns no error has counted every record of `store` and the
file operations it attempted all succeeded. -/
theorem scanLoop_of_success (env : Env) :
    ∀ (store : List Record) (st : ScanState), (scanLoop env store st).2 = none →
      (scanLoop env store st).1.corruptKeys =
          st.corruptKeys ++ (store.filter (isCorrupt env)).map Prod.fst ∧
        (scanLoop env store st).1.corrupt =
          st.corrupt + (store.filter (isCorrupt env)).length ∧
        (scanLoop env store st).1.working =
          st.working + (store.filter (fun r => !isCorrupt env r)).length ∧
        writesSucceed env store
  | [], st, _ => by simp [scanLoop, writesSucceed]
  | (k, v) :: rest, st, hok => by
    cases hu : env.unmarshal v with
    | none =>
      rw [scanLoop_cons_good env k v rest st hu] at hok ⊢
      obtain ⟨h1, h2, h3, h4⟩ := scanLoop_of_success env rest _ hok
      have hc : isCorrupt env (k, v) = false := by simp [isCorrupt, hu]
      refine ⟨?_, ?_, ?_, ?_⟩
      · rw [h1]; simp [List.filter_cons, hc]
      · rw [h2]; simp [List.filter_cons, hc]
      · rw [h3]; simp [List.filter_cons, hc]; omega
      · intro r hr hcr
        rcases List.mem_cons.mp hr with rfl | hr
        · simp [hc] at hcr
        · exact h4 r hr hcr
    | some derr =>
      have hc : isCorrupt env (k, v) = true := by simp [isCorrupt, hu]
      cases hw : writeCorrupted env (hexEncodeToString k) v st.files with
      | mk fs werr =>
        cases werr with
        | some err =>
          rw [scanLoop_cons_bad_fail env k v rest st derr hu fs err hw] at hok
          simp at hok
        | none =>
          rw [scanLoop_cons_bad_ok env k v rest st derr hu fs hw] at hok ⊢
          obtain ⟨h1, h2, h3, h4⟩ := scanLoop_of_success env rest _ hok
          have hio := (writeCorrupted_success_iff env k v st.files).mp (by rw [hw])
          refine ⟨?_, ?_, ?_, ?_⟩
          · rw [h1]; simp [List.filter_cons, hc]
          · rw [h2]; simp [List.filter_cons, hc]; omega
          · rw [h3]; simp [List.filter_cons, hc]
          · intro r hr hcr
            rcases List.mem_cons.mp hr with rfl | hr
            · exact hio
            · exact h4 r hr hcr

/-- When the file operations on the corrupt records of `store` succeed, the
loop runs to the end of `store` and returns no error. -/
theorem scanLoop_success_of_writes (env : Env) :
    ∀ (store : List Record) (st : ScanState), writesSucceed env store →
      (scanLoop env store st).2 = none
  | [], st, _ => rfl
  | (k, v) :: rest, st, hws => by
    have hrest : writesSucceed env rest := fun r hr hc => hws r (List.mem_cons_of_mem _ hr) hc
    cases hu : env.unmarshal v with
    | none =>
      rw [scanLoop_cons_good env k v rest st hu]
      exact scanLoop_success_of_writes env rest _ hrest
    | some derr =>
      have hc : isCorrupt env (k, v) = true := by simp [isCorrupt, hu]
      obtain ⟨h1, h2⟩ := hws (k, v) (List.mem_cons_self _ _) hc
      rw [scanLoop_cons_bad_ok env k v rest st derr hu _ (writeCorrupted_ok st.files h1 h2)]
      exact scanLoop_success_of_writes env rest _ hrest

/-- The loop leaves alone every file that is not the quarantine file of a
corrupt record of `store`. -/
theorem scanLoop_files_frame (env : Env) (name : String) :
    ∀ (store : List Record) (st : ScanState),
      (∀ r ∈ store, isCorrupt env r = true → quarantineName r.1 ≠ name) →
      (scanLoop env store st).1.files name = st.files name
  | [], st, _ => rfl
  | (k, v) :: rest, st, hne => by
    have hrest : ∀ r ∈ rest, isCorrupt env r = true → quarantineName r.1 ≠ name :=
      fun r hr hc => hne r (List.mem_cons_of_mem _ hr) hc
    cases hu : env.unmarshal v with
    | none =>
      rw [scanLoop_cons_good env k v rest st hu, scanLoop_files_frame env name rest _ hrest]
    | some derr =>
      have hc : isCorrupt env (k, v) = true := by simp [isCorrupt, hu]
      have hk := writeCorrupted_other env k v st.files name (hne (k, v) (List.mem_cons_self _ _) hc)
      cases hw : writeCorrupted env (hexEncodeToString k) v st.files with
      | mk fs werr =>
        rw [hw] at hk
        cases werr with
        | some err =>
          rw [scanLoop_cons_bad_fail env k v rest st derr hu fs err hw]
          exact hk
        | none =>
          rw [scanLoop_cons_bad_ok env k v rest st derr hu fs hw,
            scanLoop_files_frame env name rest _ hrest]
          exact hk

/-- The loop never removes a file. -/
theorem scanLoop_files_keep (env : Env) (name : String) :
    ∀ (store : List Record) (st : ScanState), (st.files name).isSome = true →
      ((scanLoop env store st).1.files name).isSome = true
  | [], st, h => h
  | (k, v) :: rest, st, h => by
    cases hu : env.unmarshal v with
    | none =>
      rw [scanLoop_cons_good env k v rest st hu]
      exact scanLoop_files_keep env name rest _ h
    | some derr =>
      have hk := writeCorrupted_keeps env k v st.files name h
      cases hw : writeCorrupted env (hexEncodeToString k) v st.files with
      | mk fs werr =>
        rw [hw] at hk
        cases werr with
        | some err =>
          rw [scanLoop_cons_bad_fail env k v rest st derr hu fs err hw]
          exact hk
        | none =>
          rw [scanLoop_cons_bad_ok env k v rest st derr hu fs hw]
          exact scanLoop_files_keep env name rest _ hk

/-- After a scan without error, the quarantine file of every corrupt record of
a store with distinct keys holds the value of that record. -/
theorem scanLoop_files_quarantined (env : Env) :
    ∀ (store : List Record) (st : ScanState), (store.map Prod.fst).Nodup →
      (scanLoop env store st).2 = none →
      ∀ r ∈ store, isCorrupt env r = true →
        (scanLoop env store st).1.files (quarantineName r.1) = some r.2
  | [], _, _, _ => by simp
  | (k, v) :: rest, st, hnd, hok => by
    have hnd' : k ∉ rest.map Prod.fst ∧ (rest.map Prod.fst).Nodup := by
      simpa using hnd
    cases hu : env.unmarshal v with
    | none =>
      have hc : isCorrupt env (k, v) = false := by simp [isCorrupt, hu]
      rw [scanLoop_cons_good env k v rest st hu] at hok ⊢
      intro r hr hcr
      rcases List.mem_cons.mp hr with rfl | hr
      · simp [hc] at hcr
      · exact scanLoop_files_quarantined env rest _ hnd'.2 hok r hr hcr
    | some derr =>
      cases hw : writeCorrupted env (hexEncodeToString k) v st.files with
      | mk fs werr =>
        cases werr with
        | some err =>
          rw [scanLoop_cons_bad_fail env k v rest st derr hu fs err hw] at hok
          simp at hok
        | none =>
          rw [scanLoop_cons_bad_ok env k v rest st derr hu fs hw] at hok ⊢
          have hio := (writeCorrupted_success_iff env k v st.files).mp (by rw [hw])
          have hfs : fs = st.files.put (quarantineName k) v := by
            have := @writeCorrupted_ok env k v st.files hio.1 hio.2
            rw [hw] at this
            exact congrArg Prod.fst this
          intro r hr hcr
          rcases List.mem_cons.mp hr with rfl | hr
          · rw [scanLoop_files_frame env (quarantineName k) rest _]
            · simp [hfs, FileSys.put]
            · intro r' hr' _ heq
              have hk : r'.1 = k := quarantineName_injective _ _ heq
              exact hnd'.1 (hk ▸ List.mem_map_of_mem Prod.fst hr')
          · exact scanLoop_files_quarantined env rest _ hnd'.2 hok r hr hcr

/-- After a scan without error every corrupt record has a quarantine file. -/
theorem scanLoop_files_exist (env : Env) :
    ∀ (store : List Record) (st : ScanState), (scanLoop env store st).2 = none →
      ∀ r ∈ store, isCorrupt env r = true →
        ((scanLoop env store st).1.files (quarantineName r.1)).isSome = true
  | [], _, _ => by simp
  | (k, v) :: rest, st, hok => by
    cases hu : env.unmarshal v with
    | none =>
      have hc : isCorrupt env (k, v) = false := by simp [isCorrupt, hu]
      rw [scanLoop_cons_good env k v rest st hu] at hok ⊢
      intro r hr hcr
      rcases List.mem_cons.mp hr with rfl | hr
      · simp [hc] at hcr
      · exact scanLoop_files_exist env rest _ hok r hr hcr
    | some derr =>
      cases hw : writeCorrupted env (hexEncodeToString k) v st.files with
      | mk fs werr =>
        cases werr with
        | some err =>
          rw [scanLoop_cons_bad_fail env k v rest st derr hu fs err hw] at hok
          simp at hok
        | none =>
          rw [scanLoop_cons_bad_ok env k v rest st derr hu fs hw] at hok ⊢
          have hio := (writeCorrupted_success_iff env k v st.files).mp (by rw [hw])
          have hfs : fs = st.files.put (quarantineName k) v := by
            have := @writeCorrupted_ok env k v st.files hio.1 hio.2
            rw [hw] at this
            exact congrArg Prod.fst this
          intro r hr hcr
          rcases List.mem_cons.mp hr with rfl | hr
          · apply scanLoop_files_keep
            simp [hfs, FileSys.put]
          · exact scanLoop_files_exist env rest _ hok r hr hcr

theorem scanPass_eq (env : Env) (w : World) :
    scanPass env w = (w.db, scanLoop env w.db (initState w)) := rfl

/-! ## The scan pass: counting and quarantine -/

/-- C1: when the scan pass returns no error, every record of the bucket has
been counted exactly once: `working` is the number of records whose value
decodes, `corrupt` the number of records whose value does not, their sum is
the number of records, and every record counted corrupt has its quarantine
file in the working directory. -/
theorem scan_counts_every_record_once (env : Env) (w : World)
    (hok : (scanPass env w).2.2 = none) :
    (scanPass env w).2.1.working + (scanPass env w).2.1.corrupt = w.db.length ∧
      (scanPass env w).2.1.working = (w.db.filter (fun r => !isCorrupt env r)).length ∧
      (scanPass env w).2.1.corrupt = (w.db.filter (isCorrupt env)).length ∧
      ∀ r ∈ w.db, isCorrupt env r = true →
        ((scanPass env w).2.1.files (quarantineName r.1)).isSome = true := by
  rw [scanPass_eq] at hok ⊢
  obtain ⟨_, h2, h3, _⟩ := scanLoop_of_success env w.db (initState w) hok
  have hlen : (w.db.filter (fun r => !isCorrupt env r)).length +
      (w.db.filter (isCorrupt env)).length = w.db.length := by
    have := List.length_eq_length_filter_add (l := w.db) (isCorrupt env)
    omega
  refine ⟨?_, ?_, ?_, ?_⟩
  · show (scanLoop env w.db (initState w)).1.working +
      (scanLoop env w.db (initState w)).1.corrupt = w.db.length
    rw [h2, h3]
    simp only [initState]
    omega
  · show (scanLoop env w.db (initState w)).1.working = _
    rw [h3]; simp [initState]
  · show (scanLoop env w.db (initState w)).1.corrupt = _
    rw [h2]; simp [initState]
  · intro r hr hcr
    show ((scanLoop env w.db (initState w)).1.files (quarantineName r.1)).isSome = true
    exact scanLoop_files_exist env w.db (initState w) hok r hr hcr

/-- C1, on the example of the specification: three records under `k1`, `k2`,
`k3` of which only the second does not decode give `working = 2` and
`corrupt = 1`. -/
theorem scan_counts_every_record_once_witness :
    (scanPass okEnv sampleWorld).2.2 = none ∧
      (scanPass okEnv sampleWorld).2.1.working = 2 ∧
      (scanPass okEnv sampleWorld).2.1.corrupt = 1 ∧
      (scanPass okEnv sampleWorld).2.1.working + (scanPass okEnv sampleWorld).2.1.corrupt =
        sampleWorld.db.length :=
  ⟨by decide, by decide, by decide,
    (scan_counts_every_record_once okEnv sampleWorld (by decide)).1⟩

/-- C2: after a scan pass without error over a bucket with distinct keys, for
every record `(k, v)` whose value does not decode the working directory holds
the file `contract-<lowercase hex of k>-corrupted.json` with content exactly
`v`, also when several records are corrupt. -/
theorem quarantine_file_holds_value (env : Env) (w : World)
    (hkeys : (w.db.map Prod.fst).Nodup) (hok : (scanPass env w).2.2 = none)
    (k v : Bytes) (hmem : (k, v) ∈ w.db) (hbad : env.unmarshal v ≠ none) :
    (scanPass env w).2.1.files ("contract-" ++ hexEncodeToString k ++ "-corrupted.json") =
      some v := by
  have hc : isCorrupt env (k, v) = true := by
    cases hu : env.unmarshal v with
    | none => exact absurd hu hbad
    | some e => simp [isCorrupt, hu]
  exact scanLoop_files_quarantined env w.db (initState w) hkeys hok (k, v) hmem hc

/-- C2, on a bucket with two corrupt records: each quarantine file holds the
value of its own key. -/
theorem quarantine_file_holds_value_witness :
    (scanPass okEnv { db := twoCorruptBucket, files := fun _ => none, log := [] }).2.1.files
        "contract-01-corrupted.json" = some truncatedValue ∧
      (scanPass okEnv { db := twoCorruptBucket, files := fun _ => none, log := [] }).2.1.files
        "contract-abcd-corrupted.json" = some [0, 255] :=
  ⟨quarantine_file_holds_value okEnv { db := twoCorruptBucket, files := fun _ => none, log := [] }
      (by decide) (by decide) [1] truncatedValue (by decide) (by decide),
    quarantine_file_holds_value okEnv { db := twoCorruptBucket, files := fun _ => none, log := [] }
      (by decide) (by decide) [171, 205] [0, 255] (by decide) (by decide)⟩

/-- C4: a decode failure alone never ends the scan.  When every file creation
and write the scan attempts succeeds, the scan pass returns no error and has
visited every record, however many of them fail to decode: `corrupt` is the
number of records that do not decode, `working` the number of the others, and
`main` ends normally once the database is open. -/
theorem decode_failure_does_not_abort (env : Env) (w : World)
    (hio : writesSucceed env w.db) :
    (scanPass env w).2.2 = none ∧
      (scanPass env w).2.1.corrupt = (w.db.filter (isCorrupt env)).length ∧
      (scanPass env w).2.1.working = (w.db.filter (fun r => !isCorrupt env r)).length ∧
      (scanPass env w).2.1.corrupt + (scanPass env w).2.1.working = w.db.length ∧
      (env.openDB = none → (main env w).2 = Exit.normal) := by
  have hok : (scanPass env w).2.2 = none :=
    scanLoop_success_of_writes env w.db (initState w) hio
  have hcount := scanLoop_of_success env w.db (initState w) hok
  have hlen := List.length_eq_length_filter_add (l := w.db) (isCorrupt env)
  have h2 : (scanPass env w).2.1.corrupt = (w.db.filter (isCorrupt env)).length := by
    rw [scanPass_eq]
    show (scanLoop env w.db (initState w)).1.corrupt = _
    rw [hcount.2.1]; simp [initState]
  have h3 : (scanPass env w).2.1.working =
      (w.db.filter (fun r => !isCorrupt env r)).length := by
    rw [scanPass_eq]
    show (scanLoop env w.db (initState w)).1.working = _
    rw [hcount.2.2.1]; simp [initState]
  refine ⟨hok, h2, h3, by omega, ?_⟩
  intro hopen
  unfold main
  rw [hopen]
  generalize hsp : scanPass env w = res at hok
  obtain ⟨db, st, err⟩ := res
  simp only at hok
  subst hok
  rfl

/-- C4, on a bucket in which every record fails to decode: the scan returns
no error and counts all three records corrupt. -/
theorem decode_failure_does_not_abort_witness :
    writesSucceed okEnv allCorruptBucket ∧
      (scanPass okEnv { db := allCorruptBucket, files := fun _ => none, log := [] }).2.2 = none ∧
      (scanPass okEnv { db := allCorruptBucket, files := fun _ => none, log := [] }).2.1.corrupt
        = 3 :=
  ⟨by unfold writesSucceed; decide,
    (decode_failure_does_not_abort okEnv
      { db := allCorruptBucket, files := fun _ => none, log := [] }
      (by unfold writesSucceed; decide)).1,
    by decide⟩

/-- C10: after a scan pass without error over a bucket whose keys ascend,
`corruptKeys` is exactly the list of the keys whose values fail to decode, in
the cursor's ascending order and without duplicates; `corrupt` is the length of
`corruptKeys` and `working` is the number of records whose values decode. -/
theorem corruptKeys_are_the_undecodable_keys (env : Env) (w : World)
    (hasc : keysAscending w.db) (hok : (scanPass env w).2.2 = none) :
    (scanPass env w).2.1.corruptKeys = (w.db.filter (isCorrupt env)).map Prod.fst ∧
      (∀ k, k ∈ (scanPass env w).2.1.corruptKeys ↔
        ∃ v, (k, v) ∈ w.db ∧ env.unmarshal v ≠ none) ∧
      List.Sorted (fun k k' : Bytes => k < k') (scanPass env w).2.1.corruptKeys ∧
      (scanPass env w).2.1.corruptKeys.Nodup ∧
      (scanPass env w).2.1.corrupt = (scanPass env w).2.1.corruptKeys.length ∧
      (scanPass env w).2.1.working = (w.db.filter (fun r => !isCorrupt env r)).length := by
  obtain ⟨h1, h2, h3, _⟩ := scanLoop_of_success env w.db (initState w) hok
  have hk : (scanPass env w).2.1.corruptKeys = (w.db.filter (isCorrupt env)).map Prod.fst := by
    rw [scanPass_eq]
    show (scanLoop env w.db (initState w)).1.corruptKeys = _
    rw [h1]; simp [initState]
  have hsub : List.Sublist ((w.db.filter (isCorrupt env)).map Prod.fst) (w.db.map Prod.fst) :=
    List.Sublist.map Prod.fst (List.filter_sublist w.db)
  have hsorted : List.Sorted (fun k k' : Bytes => k < k')
      ((w.db.filter (isCorrupt env)).map Prod.fst) :=
    List.Pairwise.sublist hsub hasc
  refine ⟨hk, ?_, ?_, ?_, ?_, ?_⟩
  · intro k
    rw [hk]
    constructor
    · intro hmem
      obtain ⟨r, hr, hrk⟩ := List.mem_map.mp hmem
      obtain ⟨hr1, hr2⟩ := List.mem_filter.mp hr
      refine ⟨r.2, ?_, ?_⟩
      · rw [← hrk]; exact hr1
      · intro hnone
        simp [isCorrupt, hnone] at hr2
    · rintro ⟨v, hv, hbad⟩
      refine List.mem_map.mpr ⟨(k, v), List.mem_filter.mpr ⟨hv, ?_⟩, rfl⟩
      cases hu : env.unmarshal v with
      | none => exact absurd hu hbad
      | some e => simp [isCorrupt, hu]
  · rw [hk]; exact hsorted
  · rw [hk]; exact List.Sorted.nodup hsorted
  · rw [hk, scanPass_eq]
    show (scanLoop env w.db (initState w)).1.corrupt = _
    rw [h2]; simp [initState]
  · rw [scanPass_eq]
    show (scanLoop env w.db (initState w)).1.working = _
    rw [h3]; simp [initState]

/-- C10, on the example of the specification: records `k1`, `k2`, `k3` with
only `k2` undecodable give `corruptKeys = [k2]`. -/
theorem corruptKeys_are_the_undecodable_keys_witness :
    keysAscending sampleWorld.db ∧ (scanPass okEnv sampleWorld).2.2 = none ∧
      (scanPass okEnv sampleWorld).2.1.corruptKeys = [[2]] ∧
      (scanPass okEnv sampleWorld).2.1.corrupt = 1 ∧
      (scanPass okEnv sampleWorld).2.1.working = 2 :=
  ⟨by unfold keysAscending; decide, by decide,
    (corruptKeys_are_the_undecodable_keys okEnv sampleWorld
      (by unfold keysAscending; decide) (by decide)).1.trans (by decide),
    by decide, by decide⟩

/-! ## The store is only read -/

/-- C5: the program as it stands never changes the bucket.  Whatever the
environment does and however the scan ends, the bucket after `main` is the
bucket before it, and so is the bucket after the scan pass alone; `main`
contains no call of the repair pass. -/
theorem main_never_mutates_bucket (env : Env) (w : World) :
    (main env w).1.db = w.db ∧ (scanPass env w).1 = w.db := by
  refine ⟨?_, rfl⟩
  unfold main
  cases env.openDB with
  | some err => rfl
  | none =>
    show (match scanPass env w with
      | (db, st, some err) =>
        (({ db := db, files := st.files, log := st.log ++ [err.Error],
            nested := w.nested } : World), Exit.fatal)
      | (db, st, none) =>
        ({ db := db, files := st.files, log := st.log, nested := w.nested },
          Exit.normal)).1.db = w.db
    rw [scanPass_eq]
    generalize scanLoop env w.db (initState w) = res
    obtain ⟨st, err⟩ := res
    cases err with
    | some err => rfl
    | none => rfl

/-- The program with the repair pass enabled does change the bucket: on the
sample bucket it removes the record under `k2`. -/
theorem mainWithRepair_mutates_bucket :
    (mainWithRepair okEnv sampleWorld).1.db = [([1], goodValue), ([3], goodValue)] ∧
      (mainWithRepair okEnv sampleWorld).1.db ≠ sampleWorld.db := by
  decide

/-! ## Failure of the quarantine writer -/

theorem scanLoop_append_of_success (env : Env) (l : List Record) :
    ∀ (pre : List Record) (st : ScanState), (scanLoop env pre st).2 = none →
      scanLoop env (pre ++ l) st = scanLoop env l (scanLoop env pre st).1
  | [], _, _ => rfl
  | (k, v) :: rest, st, hok => by
    cases hu : env.unmarshal v with
    | none =>
      rw [scanLoop_cons_good env k v rest st hu] at hok ⊢
      rw [List.cons_append, scanLoop_cons_good env k v (rest ++ l) st hu]
      exact scanLoop_append_of_success env l rest _ hok
    | some derr =>
      cases hw : writeCorrupted env (hexEncodeToString k) v st.files with
      | mk fs werr =>
        cases werr with
        | some err =>
          rw [scanLoop_cons_bad_fail env k v rest st derr hu fs err hw] at hok
          simp at hok
        | none =>
          rw [scanLoop_cons_bad_ok env k v rest st derr hu fs hw] at hok ⊢
          rw [List.cons_append, scanLoop_cons_bad_ok env k v (rest ++ l) st derr hu fs hw]
          exact scanLoop_append_of_success env l rest _ hok

/-- The result of the loop when the quarantine writer fails at the record
`(k, v)` that follows the records `pre`: it does not depend on the records
after `(k, v)`. -/
theorem scanLoop_abort (env : Env) (pre rest : List Record) (k v : Bytes) (st : ScanState)
    (derr err : GoError) (fs : FileSys) (hpre : (scanLoop env pre st).2 = none)
    (hu : env.unmarshal v = some derr)
    (hw : writeCorrupted env (hexEncodeToString k) v (scanLoop env pre st).1.files =
      (fs, some err)) :
    scanLoop env (pre ++ (k, v) :: rest) st =
      ({ corruptKeys := (scanLoop env pre st).1.corruptKeys ++ [k],
         corrupt := (scanLoop env pre st).1.corrupt,
         working := (scanLoop env pre st).1.working, files := fs,
         log := (scanLoop env pre st).1.log ++
           ["corrupt storage obligation " ++ hexEncodeToString k ++ ": " ++ derr.Error] },
        some (errorf ("failed to write corrupted contract " ++ hexEncodeToString k ++ ": ")
          err)) := by
  rw [scanLoop_append_of_success env _ pre st hpre,
    scanLoop_cons_bad_fail env k v rest _ derr hu fs err hw]

/-- C3: when creating or writing the quarantine file fails for the corrupt
record `(k, v)`, reached after the records `pre` were handled without an I/O
failure, the scan pass stops there.  It returns an error whose message names
the hex-encoded key and which wraps the I/O error `ioErr`; the counters are
those of `pre` alone, no file other than that of `k` differs from the state
after `pre`, the result is the same whatever records follow, and `main` ends
through `log.Fatalln`. -/
theorem quarantine_failure_aborts_scan (env : Env) (w : World) (pre rest : List Record)
    (k v : Bytes) (ioErr : GoError) (hdb : w.db = pre ++ (k, v) :: rest)
    (hpre : writesSucceed env pre) (hbad : env.unmarshal v ≠ none)
    (hio : env.create (quarantineName k) = some ioErr ∨
      (env.create (quarantineName k) = none ∧
        ∃ n, env.write (quarantineName k) v = some (n, ioErr))) :
    ∃ inner : GoError,
      (inner = errorf "failed to create file: " ioErr ∨
        inner = errorf "failed to write data: " ioErr) ∧
      (scanPass env w).2.2 =
        some (errorf ("failed to write corrupted contract " ++ hexEncodeToString k ++ ": ")
          inner) ∧
      (errorf ("failed to write corrupted contract " ++ hexEncodeToString k ++ ": ")
          inner).Error =
        "failed to write corrupted contract " ++ hexEncodeToString k ++ ": " ++ inner.Error ∧
      ioErr ∈ (errorf ("failed to write corrupted contract " ++ hexEncodeToString k ++ ": ")
        inner).chain ∧
      (scanPass env w).2.1.working = (pre.filter (fun r => !isCorrupt env r)).length ∧
      (scanPass env w).2.1.corrupt = (pre.filter (isCorrupt env)).length ∧
      (scanPass env w).2.1.corruptKeys = (pre.filter (isCorrupt env)).map Prod.fst ++ [k] ∧
      (∀ name, name ≠ quarantineName k →
        (scanPass env w).2.1.files name = (scanLoop env pre (initState w)).1.files name) ∧
      (∀ rest', (scanPass env { w with db := pre ++ (k, v) :: rest' }).2 = (scanPass env w).2) ∧
      (main env w).2 = Exit.fatal := by
  have hpok : (scanLoop env pre (initState w)).2 = none :=
    scanLoop_success_of_writes env pre (initState w) hpre
  obtain ⟨c1, c2, c3, _⟩ := scanLoop_of_success env pre (initState w) hpok
  obtain ⟨derr, hu⟩ : ∃ derr, env.unmarshal v = some derr := by
    cases hu : env.unmarshal v with
    | none => exact absurd hu hbad
    | some e => exact ⟨e, rfl⟩
  obtain ⟨fs, inner, hinner, hw⟩ : ∃ fs inner,
      (inner = errorf "failed to create file: " ioErr ∨
        inner = errorf "failed to write data: " ioErr) ∧
      writeCorrupted env (hexEncodeToString k) v (scanLoop env pre (initState w)).1.files =
        (fs, some inner) := by
    rcases hio with hc | ⟨hc, n, hwr⟩
    · exact ⟨_, _, Or.inl rfl, writeCorrupted_create_fails _ hc⟩
    · exact ⟨_, _, Or.inr rfl, writeCorrupted_write_fails _ hc hwr⟩
  have hform := fun rest' =>
    scanLoop_abort env pre rest' k v (initState w) derr inner fs hpok hu hw
  have hsp0 : (scanPass env w).2 = scanLoop env (pre ++ (k, v) :: rest) (initState w) := by
    rw [scanPass_eq, hdb]
  have hsp := hsp0.trans (hform rest)
  have hfs : ∀ name, name ≠ quarantineName k →
      fs name = (scanLoop env pre (initState w)).1.files name := by
    intro name hne
    have := writeCorrupted_other env k v (scanLoop env pre (initState w)).1.files name
      (fun h => hne h.symm)
    rw [hw] at this
    exact this
  refine ⟨inner, hinner, ?_, rfl, ?_, ?_, ?_, ?_, ?_, ?_, ?_⟩
  · rw [hsp]
  · rcases hinner with rfl | rfl <;> simp [errorf, GoError.chain] <;>
      cases ioErr <;> simp [GoError.chain]
  · rw [hsp]; show (scanLoop env pre (initState w)).1.working = _
    rw [c3]; simp [initState]
  · rw [hsp]; show (scanLoop env pre (initState w)).1.corrupt = _
    rw [c2]; simp [initState]
  · rw [hsp]; show (scanLoop env pre (initState w)).1.corruptKeys ++ [k] = _
    rw [c1]; simp [initState]
  · intro name hne
    rw [hsp]
    exact hfs name hne
  · intro rest'
    rw [hsp]
    exact hform rest'
  · unfold main
    cases env.openDB with
    | some e => rfl
    | none =>
      have h1 : scanPass env w = ((scanPass env w).1, (scanPass env w).2.1, (scanPass env w).2.2) :=
        rfl
      rw [h1, hsp]

/-- C3, on the sample bucket when `os.Create` fails: the scan stops at `k2`
with the wrapped error, having counted only `k1`, and `main` ends through
`log.Fatalln`. -/
theorem quarantine_failure_aborts_scan_witness :
    (scanPass noCreateEnv sampleWorld).2.2 =
        some (errorf "failed to write corrupted contract 02: "
          (errorf "failed to create file: " diskError)) ∧
      (scanPass noCreateEnv sampleWorld).2.1.working = 1 ∧
      (scanPass noCreateEnv sampleWorld).2.1.corrupt = 0 ∧
      (main noCreateEnv sampleWorld).2 = Exit.fatal :=
  ⟨by decide, by decide, by decide,
    Exists.elim
      (quarantine_failure_aborts_scan noCreateEnv sampleWorld [([1], goodValue)]
        [([3], goodValue)] [2] truncatedValue diskError rfl
        (by unfold writesSucceed; decide) (by decide) (Or.inl (by decide)))
      (fun _ h => h.2.2.2.2.2.2.2.2.2)⟩

/-! ## Scanning twice -/

theorem writeCorrupted_err_indep (env : Env) (contractID : String) (v : Bytes)
    (fs fs' : FileSys) :
    (writeCorrupted env contractID v fs).2 = (writeCorrupted env contractID v fs').2 := by
  unfold writeCorrupted
  cases env.create (corruptedFileName contractID) with
  | some e => rfl
  | none =>
    cases env.write (corruptedFileName contractID) v with
    | some p => rfl
    | none => rfl

/-- The counters, the key list and the error of the loop do not depend on the
files and the log it starts from. -/
theorem scanLoop_counts_indep (env : Env) :
    ∀ (store : List Record) (st st' : ScanState), st.corruptKeys = st'.corruptKeys →
      st.corrupt = st'.corrupt → st.working = st'.working →
      (scanLoop env store st).1.corruptKeys = (scanLoop env store st').1.corruptKeys ∧
        (scanLoop env store st).1.corrupt = (scanLoop env store st').1.corrupt ∧
        (scanLoop env store st).1.working = (scanLoop env store st').1.working ∧
        (scanLoop env store st).2 = (scanLoop env store st').2
  | [], _, _, h1, h2, h3 => ⟨h1, h2, h3, rfl⟩
  | (k, v) :: rest, st, st', h1, h2, h3 => by
    cases hu : env.unmarshal v with
    | none =>
      rw [scanLoop_cons_good env k v rest st hu, scanLoop_cons_good env k v rest st' hu]
      exact scanLoop_counts_indep env rest _ _ h1 h2 (by simp [h3])
    | some derr =>
      have herr := writeCorrupted_err_indep env (hexEncodeToString k) v st.files st'.files
      cases hw : writeCorrupted env (hexEncodeToString k) v st.files with
      | mk fs werr =>
        cases hw' : writeCorrupted env (hexEncodeToString k) v st'.files with
        | mk fs' werr' =>
          rw [hw, hw'] at herr
          simp only at herr
          subst herr
          cases werr with
          | some err =>
            rw [scanLoop_cons_bad_fail env k v rest st derr hu fs err hw,
              scanLoop_cons_bad_fail env k v rest st' derr hu fs' err hw']
            simp [h1, h2, h3]
          | none =>
            rw [scanLoop_cons_bad_ok env k v rest st derr hu fs hw,
              scanLoop_cons_bad_ok env k v rest st' derr hu fs' hw']
            exact scanLoop_counts_indep env rest _ _ (by simp [h1]) (by simp [h2]) h3

/-- C8: scanning again is idempotent.  A second scan pass over the unchanged
bucket, started from the working directory and the log the first pass left
behind, ends with the same `working`, the same `corrupt`, the same
`corruptKeys` and the same error result as the first. -/
theorem rescan_is_idempotent (env : Env) (w : World) :
    (scanPass env (worldAfterScan env w)).2.1.working = (scanPass env w).2.1.working ∧
      (scanPass env (worldAfterScan env w)).2.1.corrupt = (scanPass env w).2.1.corrupt ∧
      (scanPass env (worldAfterScan env w)).2.1.corruptKeys =
        (scanPass env w).2.1.corruptKeys ∧
      (scanPass env (worldAfterScan env w)).2.2 = (scanPass env w).2.2 := by
  obtain ⟨h1, h2, h3, h4⟩ := scanLoop_counts_indep env w.db
    (initState (worldAfterScan env w)) (initState w) rfl rfl rfl
  exact ⟨h3, h2, h1, h4⟩

/-- Two scan passes over the same bucket with the same decoder that both
return no error agree on the counters and the key list, whatever the file
operations of the two runs did otherwise. -/
theorem scans_agree_when_both_succeed (env env' : Env) (w w' : World)
    (hdec : env'.unmarshal = env.unmarshal) (hdb : w'.db = w.db)
    (hok : (scanPass env w).2.2 = none) (hok' : (scanPass env' w').2.2 = none) :
    (scanPass env' w').2.1.working = (scanPass env w).2.1.working ∧
      (scanPass env' w').2.1.corrupt = (scanPass env w).2.1.corrupt ∧
      (scanPass env' w').2.1.corruptKeys = (scanPass env w).2.1.corruptKeys := by
  have hc : isCorrupt env' = isCorrupt env := by
    funext r; simp [isCorrupt, hdec]
  obtain ⟨a1, a2, a3, _⟩ := scanLoop_of_success env w.db (initState w) hok
  obtain ⟨b1, b2, b3, _⟩ := scanLoop_of_success env' w'.db (initState w') hok'
  rw [hdb, hc] at b1 b2 b3
  refine ⟨?_, ?_, ?_⟩
  · show (scanLoop env' w'.db (initState w')).1.working = (scanLoop env w.db (initState w)).1.working
    rw [hdb, a3, b3]; rfl
  · show (scanLoop env' w'.db (initState w')).1.corrupt = (scanLoop env w.db (initState w)).1.corrupt
    rw [hdb, a2, b2]; rfl
  · show (scanLoop env' w'.db (initState w')).1.corruptKeys =
      (scanLoop env w.db (initState w)).1.corruptKeys
    rw [hdb, a1, b1]; rfl

/-! ## The repair pass -/

theorem deleteLoop_writable (nested : List Bytes) :
    ∀ (ks : List Bytes) (b : Bucket), (∀ k ∈ ks, k ∉ nested) →
      deleteLoop ks { writable := true, bucket := b, nested := nested } =
        ({ writable := true, bucket := b.filter (fun r => !decide (r.1 ∈ ks)),
           nested := nested }, none)
  | [], b, _ => by simp [deleteLoop]
  | k :: ks, b, hn => by
    have hk : k ∉ nested := hn k (List.mem_cons_self _ _)
    have hks : ∀ k' ∈ ks, k' ∉ nested := fun k' h => hn k' (List.mem_cons_of_mem _ h)
    have hstep : bucketDelete { writable := true, bucket := b, nested := nested } k =
        ({ writable := true, bucket := b.filter (fun r => !decide (r.1 = k)),
           nested := nested }, none) := by
      simp [bucketDelete, hk]
    simp only [deleteLoop, hstep]
    rw [deleteLoop_writable nested ks _ hks, List.filter_filter]
    congr 2
    apply List.filter_congr
    intro r _
    by_cases h1 : r.1 = k <;> by_cases h2 : r.1 ∈ ks <;> simp [h1, h2]

/-- The delete loop returns an error as soon as it meets a key that holds a
nested bucket. -/
theorem deleteLoop_fails_of_nested (nested : List Bytes) :
    ∀ (ks : List Bytes) (b : Bucket), (∃ k ∈ ks, k ∈ nested) →
      (deleteLoop ks { writable := true, bucket := b, nested := nested }).2 ≠ none
  | [], _, h => by simp at h
  | k :: ks, b, h => by
    by_cases hk : k ∈ nested
    · simp [deleteLoop, bucketDelete, hk]
    · have hstep : bucketDelete { writable := true, bucket := b, nested := nested } k =
          ({ writable := true, bucket := b.filter (fun r => !decide (r.1 = k)),
             nested := nested }, none) := by
        simp [bucketDelete, hk]
      simp only [deleteLoop, hstep]
      apply deleteLoop_fails_of_nested nested ks
      obtain ⟨k', hk', hn'⟩ := h
      rcases List.mem_cons.mp hk' with rfl | hmem
      · exact absurd hn' hk
      · exact ⟨k', hmem, hn'⟩

theorem repairPass_eq (ks : List Bytes) (db : Bucket) (nested : List Bytes)
    (hn : ∀ k ∈ ks, k ∉ nested) :
    repairPass ks db nested = (db.filter (fun r => !decide (r.1 ∈ ks)), none) := by
  simp [repairPass, dbUpdate, deleteLoop_writable nested ks db hn]

/-- When a key of the list holds a nested bucket, the repair pass returns an
error and the write transaction is rolled back: the bucket is unchanged. -/
theorem repairPass_rolls_back_on_nested (ks : List Bytes) (db : Bucket) (nested : List Bytes)
    (hn : ∃ k ∈ ks, k ∈ nested) :
    (repairPass ks db nested).2 ≠ none ∧ (repairPass ks db nested).1 = db := by
  have hfail := deleteLoop_fails_of_nested nested ks db hn
  unfold repairPass dbUpdate
  cases hd : (deleteLoop ks { writable := true, bucket := db, nested := nested }).2 with
  | none => exact absurd hd hfail
  | some e => simp [hd]

theorem get_filter_of_kept (p : Record → Bool) (k : Bytes)
    (hp : ∀ v, p (k, v) = true) :
    ∀ b : Bucket, Bucket.get (b.filter p) k = Bucket.get b k
  | [] => rfl
  | (k', v) :: rest => by
    have ih := get_filter_of_kept p k hp rest
    unfold Bucket.get at ih ⊢
    by_cases hk : k' = k
    · subst hk
      simp [List.filter_cons, hp v]
    · by_cases hpr : p (k', v) = true
      · simpa [List.filter_cons, hpr, List.find?_cons, hk] using ih
      · simpa [List.filter_cons, hpr, List.find?_cons, hk] using ih

/-- C9, amended: the repair pass, run on the bucket after a scan pass that
returned no error, when none of the keys in the scan's `corruptKeys` holds a
nested bucket: it returns no error, the resulting bucket contains none of the
keys of `corruptKeys`, and every other key is still present with the value it
had before the repair. -/
theorem repair_removes_exactly_corruptKeys (env : Env) (w : World)
    (hok : (scanPass env w).2.2 = none)
    (hnest : ∀ k ∈ (scanPass env w).2.1.corruptKeys, k ∉ w.nested) :
    (repairPass (scanPass env w).2.1.corruptKeys (scanPass env w).1 w.nested).2 = none ∧
      (∀ k ∈ (scanPass env w).2.1.corruptKeys,
        k ∉ (repairPass (scanPass env w).2.1.corruptKeys (scanPass env w).1
          w.nested).1.map Prod.fst) ∧
      (∀ k, k ∉ (scanPass env w).2.1.corruptKeys →
        Bucket.get (repairPass (scanPass env w).2.1.corruptKeys (scanPass env w).1
            w.nested).1 k =
          Bucket.get (scanPass env w).1 k) ∧
      (∀ r : Record, r.1 ∉ (scanPass env w).2.1.corruptKeys →
        (r ∈ (repairPass (scanPass env w).2.1.corruptKeys (scanPass env w).1 w.nested).1 ↔
          r ∈ (scanPass env w).1)) ∧
      (env.openDB = none → (mainWithRepair env w).1.db =
        (repairPass (scanPass env w).2.1.corruptKeys (scanPass env w).1 w.nested).1) := by
  rw [repairPass_eq _ _ _ hnest]
  refine ⟨rfl, ?_, ?_, ?_, ?_⟩
  · intro k hk hmem
    obtain ⟨r, hr, hrk⟩ := List.mem_map.mp hmem
    have := (List.mem_filter.mp hr).2
    rw [hrk] at this
    simp [hk] at this
  · intro k hk
    exact get_filter_of_kept _ k (fun v => by simp [hk]) _
  · intro r hr
    simp [List.mem_filter, hr]
  · intro hopen
    unfold mainWithRepair
    rw [hopen]
    have h1 : scanPass env w = ((scanPass env w).1, (scanPass env w).2.1, (scanPass env w).2.2) :=
      rfl
    rw [h1, hok]
    simp only [repairPass_eq _ _ _ hnest]
    cases hv : verifyLoop env
        (List.filter (fun r => !decide (r.1 ∈ (scanPass env w).2.1.corruptKeys))
          (scanPass env w).1) with
    | none => simp [dbView, hv]
    | some e => simp [dbView, hv]

/-- C9 as amended, on the sample bucket: the repair removes `k2` and keeps `k1`
and `k3` with their values. -/
theorem repair_removes_exactly_corruptKeys_witness :
    (scanPass okEnv sampleWorld).2.2 = none ∧
      (∀ k ∈ (scanPass okEnv sampleWorld).2.1.corruptKeys, k ∉ sampleWorld.nested) ∧
      (repairPass (scanPass okEnv sampleWorld).2.1.corruptKeys
        (scanPass okEnv sampleWorld).1 sampleWorld.nested).1 =
          [([1], goodValue), ([3], goodValue)] ∧
      (repairPass (scanPass okEnv sampleWorld).2.1.corruptKeys
        (scanPass okEnv sampleWorld).1 sampleWorld.nested).2 = none :=
  ⟨by decide, by decide, by decide,
    (repair_removes_exactly_corruptKeys okEnv sampleWorld (by decide) (by decide)).1⟩

/-- C9 fails as stated: in a bucket whose key `02` holds a nested bucket the
scan pass returns no error and lists `02` in `corruptKeys`, since the cursor
yields it with a `nil` value that does not decode; `Delete` then returns
`ErrIncompatibleValue`, the write transaction is rolled back, and the key `02`
is still in the bucket after the repair pass. -/
theorem repair_keeps_nested_bucket_key :
    (scanPass okEnv nestedWorld).2.2 = none ∧
      (scanPass okEnv nestedWorld).2.1.corruptKeys = [[2]] ∧
      (repairPass (scanPass okEnv nestedWorld).2.1.corruptKeys
        (scanPass okEnv nestedWorld).1 nestedWorld.nested).2 =
          some (errorf "failed to delete corrupt obligation 02: " ErrIncompatibleValue) ∧
      [2] ∈ (repairPass (scanPass okEnv nestedWorld).2.1.corruptKeys
        (scanPass okEnv nestedWorld).1 nestedWorld.nested).1.map Prod.fst ∧
      (mainWithRepair okEnv nestedWorld).1.db = nestedBucket ∧
      (mainWithRepair okEnv nestedWorld).2 = Exit.fatal := by
  decide

/-! ## The status formatter -/

/-- C6, as the code has it: `storageObligationStatus.String` returns
"obligationUnresolved" for 0, "obligationRejected" for 1,
"obligationSucceeded" for 2 and "obligationFailed" for 3. -/
theorem status_names :
    storageObligationStatus.String 0 = "obligationUnresolved" ∧
      storageObligationStatus.String 1 = "obligationRejected" ∧
      storageObligationStatus.String 2 = "obligationSucceeded" ∧
      storageObligationStatus.String 3 = "obligationFailed" := by
  decide

/-- C6 fails as stated: for the status 0 the method returns
"obligationUnresolved", which is not the string "unresolved"; likewise for 1,
2 and 3. -/
theorem status_names_not_bare :
    storageObligationStatus.String 0 ≠ "unresolved" ∧
      storageObligationStatus.String 1 ≠ "rejected" ∧
      storageObligationStatus.String 2 ≠ "succeeded" ∧
      storageObligationStatus.String 3 ≠ "failed" := by
  decide

theorem toInt64_small {i : Nat} (h : i < 2 ^ 63) : toInt64 i = (i : Int) := by
  unfold toInt64
  have h1 : i % 2 ^ 64 = i := Nat.mod_eq_of_lt (by omega)
  rw [h1, if_pos h]

theorem toInt64_large {i : Nat} (h1 : 2 ^ 63 ≤ i) (h2 : i < 2 ^ 64) :
    toInt64 i = -((2 ^ 64 - i : Nat) : Int) := by
  unfold toInt64
  have h3 : i % 2 ^ 64 = i := Nat.mod_eq_of_lt h2
  rw [h3, if_neg (by omega)]
  omega

/-- For a status from 4 up to `2 ^ 63 - 1` the method embeds the decimal
representation of the status. -/
theorem status_string_below_two_pow_63 (i : Nat) (h4 : 4 ≤ i) (h : i < 2 ^ 63) :
    storageObligationStatus.String i = "storageObligationStatus(" ++ formatUint i ++ ")" := by
  unfold storageObligationStatus.String
  rw [if_neg (by omega), if_neg (by omega), if_neg (by omega), if_neg (by omega),
    toInt64_small h]
  unfold formatInt
  rw [if_neg (by omega)]
  simp

/-- For a status from `2 ^ 63` up to `2 ^ 64 - 1` the method embeds a minus
sign and the decimal representation of `2 ^ 64 - i`. -/
theorem status_string_from_two_pow_63 (i : Nat) (h1 : 2 ^ 63 ≤ i) (h2 : i < 2 ^ 64) :
    storageObligationStatus.String i =
      "storageObligationStatus(" ++ ("-" ++ formatUint (2 ^ 64 - i)) ++ ")" := by
  unfold storageObligationStatus.String
  rw [if_neg (by omega), if_neg (by omega), if_neg (by omega), if_neg (by omega),
    toInt64_large h1 h2]
  unfold formatInt
  rw [if_pos (by omega)]
  simp

/-- C7 at the status `2 ^ 63`: the method returns
"storageObligationStatus(-9223372036854775808)", not the string that embeds
the decimal representation 9223372036854775808 of the status. -/
theorem status_string_at_two_pow_63 :
    storageObligationStatus.String (2 ^ 63) =
        "storageObligationStatus(-9223372036854775808)" ∧
      formatUint (2 ^ 63) = "9223372036854775808" ∧
      storageObligationStatus.String (2 ^ 63) ≠
        "storageObligationStatus(" ++ formatUint (2 ^ 63) ++ ")" ∧
      storageObligationStatus.String (2 ^ 64 - 1) = "storageObligationStatus(-1)" := by
  decide

end SiaHostdbCorruption
